import Mathlib

/-!
Verification of the issue-classification and suitability-filter core of the
GenBench repository (`issue_classifier.py` and `analyze.py`), shallowly
embedded in Lean.

Conventions of the embedding:
* Python strings are Lean `String`s; most work happens on their `List Char`
  data.  Scores are exact rationals (`ℚ`); every score produced by the code is
  a multiple of 1/2, so `ℚ` models the Python floats without rounding.
* `str.lower()` is modelled as ASCII lowercasing (`Char.toLower`), which
  agrees with Python on all ASCII text; the CJK keywords of the lexicons are
  unaffected by lowercasing in both systems.
* The regex word class `\w` is modelled by `isWordChar`: ASCII alphanumerics,
  underscore, and all non-ASCII characters.  This agrees with Python's
  unicode `\w` on every character appearing in the lexicons and in the ASCII
  inputs of the spec's examples (CJK ideographs are word characters in both).
* The regex whitespace class `\s` is modelled by `isPySpace` covering the six
  ASCII whitespace characters matched by Python's `\s`.
* `re.findall(r'\b' + re.escape(kw) + r'\b', text)` returns the
  non-overlapping, left-to-right matches of the literal keyword between word
  boundaries; `countOcc` computes exactly that count, scanning left to right
  with the one-character lookbehind state that `\b` needs.
-/

/-- Model of the regex word class `\w` (ASCII part exact; all non-ASCII
characters, in particular the CJK keywords, count as word characters). -/
def isWordChar (c : Char) : Bool :=
  c.isAlphanum || c == '_' || decide (0x80 ≤ c.toNat)

/-- Model of the regex whitespace class `\s` (the six ASCII whitespace
characters Python's `\s` matches). -/
def isPySpace (c : Char) : Bool :=
  c == ' ' || c == '\t' || c == '\n' || c == '\r' || c == '\x0b' || c == '\x0c'

/-- Python `str.lower()` restricted to ASCII case mapping. -/
def pyLower (s : String) : String := ⟨s.data.map Char.toLower⟩

/-- A single-quote character, used in keywords and reason strings. -/
def apostr : String := String.singleton (Char.ofNat 39)

/-- Python's `pat in s` substring test. -/
def isSubstr (pat cs : List Char) : Bool :=
  cs.tails.any (fun t => pat.isPrefixOf t)

/-- Substring test on strings. -/
def substrS (pat s : String) : Bool := isSubstr pat.data s.data

/-- Last character of a keyword (default only reached for the empty keyword,
which never occurs in the lexicons). -/
def lastCharD (kw : List Char) : Char := kw.getLastD ' '

/-- Whether the next character starts with a word character (`false` at the
end of the text, matching the `\b` semantics at a string edge). -/
def nextIsWord : List Char → Bool
  | [] => false
  | c :: _ => isWordChar c

/-- `matchesAt kw prevW cs` holds when the regex `\b kw \b` matches at the
current position: `kw` is a literal prefix of `cs`, there is a word boundary
before it (`prevW` is the word-character status of the previous character,
`false` at the start of the text), and a word boundary after it. -/
def matchesAt (kw : List Char) (prevW : Bool) (cs : List Char) : Bool :=
  match kw with
  | [] => false
  | k0 :: _ =>
    kw.isPrefixOf cs
      && (prevW != isWordChar k0)
      && (isWordChar (lastCharD kw) != nextIsWord (cs.drop kw.length))

/-- Fuel-indexed scanner counting the non-overlapping, left-to-right matches
of `\b kw \b` in `cs`, as `re.findall` does.  The fuel only serves
termination; any fuel `≥ cs.length` gives the stable answer. -/
def countAux (kw : List Char) : Nat → Bool → List Char → Nat
  | 0, _, _ => 0
  | fuel + 1, prevW, cs =>
    if matchesAt kw prevW cs then
      1 + countAux kw fuel (isWordChar (lastCharD kw)) (cs.drop kw.length)
    else
      match cs with
      | [] => 0
      | c :: rest => countAux kw fuel (isWordChar c) rest

/-- Number of matches of `re.findall(r'\b' + re.escape(kw) + r'\b', cs)`. -/
def countOcc (kw cs : List Char) : Nat := countAux kw cs.length false cs

/-- The weighted keyword tables of `IssueClassifier.__init__`. -/
structure Lexicon where
  high : List String
  medium : List String
  low : List String

/-- `self.bug_keywords` from `issue_classifier.py`. -/
def bug_keywords : Lexicon where
  high := ["crash", "broken", "error", "exception", "failed", "failure",
    "bug", "issue", "incorrect", "wrong", "unexpected", "regression",
    "defect", "glitch", "flaw",
    "崩溃", "错误", "失败", "异常", "故障", "缺陷", "问题", "不正确", "意外"]
  medium := ["fix", "patch", "repair", "debug", "troubleshoot", "not working",
    "does not work", "unable to", "cannot", "can" ++ apostr ++ "t",
    "won" ++ apostr ++ "t", "doesn" ++ apostr ++ "t", "problem", "conflict",
    "修复", "调试", "无法", "不能", "冲突", "解决", "处理"]
  low := ["improve", "optimize", "refactor", "cleanup", "update", "upgrade",
    "migrate", "改进", "优化", "重构", "清理", "更新", "升级", "迁移"]

/-- `self.enhancement_keywords` from `issue_classifier.py`. -/
def enhancement_keywords : Lexicon where
  high := ["feature", "enhancement", "add", "new", "implement", "introduce",
    "support", "request", "propose", "suggest", "wish", "extend", "expand",
    "create",
    "功能", "增强", "添加", "新增", "实现", "引入", "支持", "请求", "建议",
    "希望", "扩展", "创建"]
  medium := ["allow", "enable", "provide", "option", "setting", "config",
    "custom", "ability", "capability", "integration", "api", "interface",
    "module",
    "允许", "启用", "提供", "选项", "设置", "配置", "自定义", "能力", "集成",
    "接口", "模块"]
  low := ["improve", "enhance", "upgrade", "extend", "expand", "modify",
    "change", "改进", "增强", "升级", "扩展", "修改", "变更"]

/-- `self.exclude_keywords['other']` from `issue_classifier.py`. -/
def exclude_other : List String :=
  ["question", "help", "discussion", "info", "information", "clarification",
   "documentation", "readme", "guide", "tutorial", "example", "meta",
   "问题", "帮助", "讨论", "信息", "说明", "文档", "指南", "教程", "示例", "元"]

/-- Sum of the whole-word match counts of each keyword of a tier in text
`t` (already lowered). -/
def sumCounts (kws : List String) (t : List Char) : Nat :=
  (kws.map (fun k => countOcc k.data t)).sum

/-- `IssueClassifier._calculate_score`: empty text scores 0; otherwise the
text is lowered and, for every tier and every keyword in it, the number of
whole-word matches is multiplied by the tier weight (high 3.0, medium 2.0,
low 1.0) and everything is summed.  The Python iterates the tiers and
keywords in order and accumulates; summation is order-independent, so the
three per-tier sums below are the same total. -/
def calculate_score (text : String) (lex : Lexicon) : ℚ :=
  if text = "" then 0
  else
    3 * (sumCounts lex.high (pyLower text).data : ℚ)
      + 2 * (sumCounts lex.medium (pyLower text).data : ℚ)
      + (sumCounts lex.low (pyLower text).data : ℚ)

/-- `IssueClassifier._check_exclude_patterns`: 2.0 per whole-word match of
any exclusion keyword. -/
def check_exclude_patterns (text : String) : ℚ :=
  if text = "" then 0
  else 2 * (sumCounts exclude_other (pyLower text).data : ℚ)

/-- Matching one template regex at the current position: the patterns are
literal words joined by `\s+`.  `\s+` is matched by maximal munch, which is
exact here because every following token starts with a non-space character. -/
def tokSeq : List String → List Char → Bool
  | [], _ => true
  | [tok], cs => tok.data.isPrefixOf cs
  | tok :: tok2 :: toks, cs =>
    tok.data.isPrefixOf cs
      && (match cs.drop tok.data.length with
          | [] => false
          | c :: rest => isPySpace c && tokSeq (tok2 :: toks) (rest.dropWhile isPySpace))

/-- `re.search` of a template pattern: try every start position. -/
def searchTok (pat : List String) (cs : List Char) : Bool :=
  cs.tails.any (tokSeq pat)

/-- `self.template_patterns['bug']`, each regex as its `\s+`-separated
literal tokens. -/
def template_patterns_bug : List (List String) :=
  [["bug", "report", "template"], ["bug", "template"], ["issue", "template"],
   ["error", "report"], ["故障报告模板"], ["问题报告模板"]]

/-- `self.template_patterns['enhancement']`. -/
def template_patterns_enhancement : List (List String) :=
  [["feature", "request", "template"], ["feature", "template"],
   ["enhancement", "request"], ["功能请求模板"], ["功能建议模板"]]

/-- `IssueClassifier._check_templates`: `(10.0, category)` for the first
matching pattern in category-then-pattern order (`bug` patterns first), else
`(0.0, 'other')`.  All patterns of one category yield the same result, so
the per-category `any` realizes first-match order. -/
def check_templates (text : String) : ℚ × String :=
  if text = "" then (0, "other")
  else
    if template_patterns_bug.any (fun p => searchTok p (pyLower text).data) then
      (10, "bug")
    else if template_patterns_enhancement.any
        (fun p => searchTok p (pyLower text).data) then
      (10, "enhancement")
    else (0, "other")

/-- The text blob `classify_issue` builds: `f"{title} {body}"`, plus
`" " + " ".join(labels)` when the label list is non-empty. -/
def combinedText (title body : String) (labels : List String) : String :=
  let c := title ++ " " ++ body
  if labels.isEmpty then c else c ++ " " ++ String.intercalate " " labels

/-- The label-bonus loop of `classify_issue` step 4: each label adds 2.0 to
the bug score if it contains `bug` or `fix`, else 2.0 to the enhancement
score if it contains `feature`, `enhancement` or `request`. -/
def label_bonus (labels : List String) (scores : ℚ × ℚ) : ℚ × ℚ :=
  labels.foldl
    (fun p lab =>
      if substrS "bug" (pyLower lab) || substrS "fix" (pyLower lab) then
        (p.1 + 2, p.2)
      else if substrS "feature" (pyLower lab) || substrS "enhancement" (pyLower lab)
          || substrS "request" (pyLower lab) then
        (p.1, p.2 + 2)
      else p)
    scores

/-- `IssueClassifier.classify_issue`. -/
def classify_issue (title body : String) (labels : List String) : String :=
  let combined := combinedText title body labels
  let tpl := check_templates combined
  if tpl.1 > 0 then tpl.2
  else
    let bs := label_bonus labels
      (calculate_score combined bug_keywords,
       calculate_score combined enhancement_keywords)
    let ex := check_exclude_patterns combined
    let fb := bs.1 - ex * (1 / 2)
    let fe := bs.2 - ex * (1 / 2)
    if ex > 5 then "other"
    else if fb > fe ∧ fb ≥ 1 then "bug"
    else if fe > fb ∧ fe ≥ 1 then "enhancement"
    else "other"

/-- The raw blob-derived score triple (bug, enhancement, exclude) that
`get_classification_confidence` recomputes, with no label bonuses. -/
def rawScores (blob : String) : ℚ × ℚ × ℚ :=
  (calculate_score blob bug_keywords,
   calculate_score blob enhancement_keywords,
   check_exclude_patterns blob)

/-- The confidence arithmetic of `get_classification_confidence`. -/
def confidence_formula (category : String) (r : ℚ × ℚ × ℚ) : ℚ :=
  if category = "bug" then min (r.1 / (r.1 + r.2.1 + 1)) 1
  else if category = "enhancement" then min (r.2.1 / (r.1 + r.2.1 + 1)) 1
  else r.2.2 / (r.2.2 + r.1 + r.2.1 + 1)

/-- `IssueClassifier.get_classification_confidence`. -/
def get_classification_confidence (title body : String) (labels : List String) :
    String × ℚ :=
  (classify_issue title body labels,
   confidence_formula (classify_issue title body labels)
     (rawScores (combinedText title body labels)))

/-- The final decision scores of `classify_issue` steps 2-5:
`(finalBug, finalEnhancement, excludeScore)` with label bonuses applied. -/
def finalScoresOf (title body : String) (labels : List String) : ℚ × ℚ × ℚ :=
  let combined := combinedText title body labels
  let bs := label_bonus labels
    (calculate_score combined bug_keywords,
     calculate_score combined enhancement_keywords)
  let ex := check_exclude_patterns combined
  (bs.1 - ex * (1 / 2), bs.2 - ex * (1 / 2), ex)

/-- The decision rule of the spec (section 4.3 step 7), stated from the
claim's words, to be compared with `classify_issue`. -/
def decision_spec (fb fe ex : ℚ) : String :=
  if ex > 5 then "other"
  else if fb > fe ∧ fb ≥ 1 then "bug"
  else if fe > fb ∧ fe ≥ 1 then "enhancement"
  else "other"

/-! ## Embedding of `analyze.py` -/

/-- An issue record as consumed by `is_suitable_programming_issue`: missing
`title`/`body` become the empty string, as with `issue.get('title', '')`. -/
structure Issue where
  title : String
  body : String
  labels : List String

/-- `negative_keywords` from `analyze.py`. -/
def negative_keywords : List String :=
  ["typo", "spelling", "grammar", "format", "style", "lint", "cleanup",
   "deprecated", "remove", "delete", "security", "vulnerability", "hack",
   "workaround", "temporary", "patch", "hotfix", "urgent", "critical",
   "broken build", "missing import", "syntax error"]

/-- `positive_keywords` from `analyze.py`. -/
def positive_keywords : List String :=
  ["implement", "add", "create", "build", "develop", "feature", "enhancement",
   "optimization", "refactor", "improve", "extend", "integrate", "support",
   "algorithm", "function", "method", "class", "module", "component",
   "performance", "efficiency", "speed", "memory", "cache", "optimize"]

/-- `cross_platform_keywords` from `analyze.py`. -/
def cross_platform_keywords : List String :=
  ["cross-platform", "cross platform", "platform independent", "multiplatform",
   "windows", "macos", "mac os", "linux", "ubuntu", "debian", "centos",
   "ios", "android", "web", "browser", "chrome", "firefox", "safari",
   "compatibility", "portable", "mobile", "desktop", "native",
   "operating system", "os-specific", "platform-specific"]

/-- `moderate_bug_keywords` from `analyze.py`. -/
def moderate_bug_keywords : List String :=
  ["algorithm", "performance", "optimization", "logic", "calculation",
   "rendering", "display", "interaction", "behavior", "refactor"]

/-- `positive_labels` from `analyze.py`. -/
def positive_labels : List String :=
  ["enhancement", "feature", "good first issue", "help wanted", "performance",
   "optimization", "refactor", "algorithm", "implementation"]

/-- `negative_labels` from `analyze.py`. -/
def negative_labels : List String :=
  ["bug", "documentation", "maintenance", "security", "cleanup", "chore",
   "wontfix", "duplicate", "question", "discussion"]

/-- `complexity_indicators` from `analyze.py`. -/
def complexity_indicators : List String :=
  ["algorithm", "data structure", "optimization", "performance", "efficiency",
   "scaling", "memory", "cpu", "cache", "parallel", "async", "concurrent"]

/-- Literal regex piece followed by a continuation. -/
def litThen (lit : String) (k : List Char → Bool) (cs : List Char) : Bool :=
  lit.data.isPrefixOf cs && k (cs.drop lit.data.length)

/-- `\s+` followed by a continuation, by maximal munch (exact here because
every continuation in the patterns below starts with a non-space literal or
word character). -/
def wsPlusThen (k : List Char → Bool) : List Char → Bool
  | [] => false
  | c :: rest => isPySpace c && k (rest.dropWhile isPySpace)

/-- `\w+` followed by a continuation, by maximal munch (exact here because
every continuation starts with `\s`, which no word character satisfies). -/
def wordPlusThen (k : List Char → Bool) : List Char → Bool
  | [] => false
  | c :: rest => isWordChar c && k (rest.dropWhile isWordChar)

/-- A regex alternation of literals with nothing after it. -/
def altLit (lits : List String) (cs : List Char) : Bool :=
  lits.any (fun l => l.data.isPrefixOf cs)

/-- `re.search`: try the position matcher at every start position. -/
def anyTail (p : List Char → Bool) (cs : List Char) : Bool :=
  cs.tails.any p

/-- The six `specific_patterns` regexes of `analyze.py`, matched at one
position. -/
def specific_pattern_here (cs : List Char) : Bool :=
  litThen "implement" (wsPlusThen (wordPlusThen (fun _ => true))) cs
    || litThen "add" (wsPlusThen (wordPlusThen
         (wsPlusThen (litThen "support" (fun _ => true))))) cs
    || litThen "create" (wsPlusThen (wordPlusThen (fun _ => true))) cs
    || litThen "build" (wsPlusThen (wordPlusThen (fun _ => true))) cs
    || litThen "develop" (wsPlusThen (wordPlusThen (fun _ => true))) cs
    || litThen "integrate" (wsPlusThen (wordPlusThen (fun _ => true))) cs

/-- The four `bug_patterns` regexes of `analyze.py`, matched at one
position. -/
def bug_pattern_here (cs : List Char) : Bool :=
  litThen "fix" (wsPlusThen
    (altLit ["algorithm", "logic", "calculation", "performance"])) cs
    || litThen "resolve" (wsPlusThen
         (altLit ["performance", "memory", "rendering"])) cs
    || litThen "correct" (wsPlusThen
         (altLit ["behavior", "logic", "calculation"])) cs
    || litThen "improve" (wsPlusThen
         (altLit ["performance", "efficiency", "algorithm"])) cs

/-- The reason string `f"Contains negative keyword: '{keyword}'"`. -/
def negReason (kw : String) : String :=
  "Contains negative keyword: " ++ apostr ++ kw ++ apostr

/-- The reason string for the cross-platform rejection. -/
def crossReason (kw : String) : String :=
  "Cross-platform issue not suitable for fixed environment: " ++ apostr ++ kw ++ apostr

/-- The reason string `f"Has negative label: '{label}'"`. -/
def negLabelReason (lab : String) : String :=
  "Has negative label: " ++ apostr ++ lab ++ apostr

/-- `is_suitable_programming_issue` from `analyze.py`.  Title, body and
labels are lowered once up front (the source's repeated `.lower()` calls on
already-lowered text are idempotent).  The keyword tests are Python `in`,
i.e. plain substring containment. -/
def is_suitable_programming_issue (issue : Issue) : Bool × String :=
  let title := pyLower issue.title
  let body := pyLower issue.body
  let labels := issue.labels.map pyLower
  match negative_keywords.find?
      (fun kw => isSubstr kw.data (title.data.take 100)) with
  | some kw => (false, negReason kw)
  | none =>
  match cross_platform_keywords.find?
      (fun kw => isSubstr kw.data title.data || isSubstr kw.data (body.data.take 500)) with
  | some kw => (false, crossReason kw)
  | none =>
  match negative_labels.find? (fun lab => labels.contains lab) with
  | some lab => (false, negLabelReason lab)
  | none =>
    let hasPositiveKeyword := positive_keywords.any
      (fun kw => isSubstr kw.data title.data || isSubstr kw.data (body.data.take 500))
    let hasPositiveLabel := positive_labels.any (fun lab => labels.contains lab)
    let hasSpecificPattern := anyTail specific_pattern_here title.data
    let hasComplexity := complexity_indicators.any
      (fun kw => isSubstr kw.data body.data)
    let hasModerateBug := moderate_bug_keywords.any
      (fun kw => isSubstr kw.data title.data || isSubstr kw.data (body.data.take 500))
    let hasBugPattern := anyTail bug_pattern_here title.data
    if hasPositiveLabel || hasPositiveKeyword || hasSpecificPattern then
      if hasComplexity then
        (true, "Complex implementation challenge with good learning value")
      else
        (true, "Clear implementation task suitable for programming exercise")
    else if hasModerateBug || hasBugPattern then
      (true, "Moderate bug fix with good learning value")
    else if decide (20 < title.length)
        && !(negative_keywords.any (fun kw => isSubstr kw.data title.data)) then
      (true, "Substantial request based on title length and content")
    else
      (false, "Lacks clear implementation requirements or learning value")

/-- Python `str.strip()` (whitespace trim on both ends). -/
def pyStrip (s : String) : String :=
  ⟨((s.data.dropWhile isPySpace).reverse.dropWhile isPySpace).reverse⟩

/-- Case-insensitive literal match consuming a prefix (the literal is given
in lower case). -/
def dropCI (lit : String) (cs : List Char) : Option (List Char) :=
  if (cs.take lit.data.length).map Char.toLower = lit.data then
    some (cs.drop lit.data.length)
  else none

/-- Matching `SUITABLE:\s*(true|false)\s*-\s*(.+)` (IGNORECASE) at one
position, returning group 1 as a Bool and group 2 raw.  `\s*` before the
alternation and before `-` is maximal munch (exact: `t`, `f` and `-` are not
whitespace).  For the final `\s*(.+)`, the regex backtracks the greedy `\s*`
until `.+` can take at least one non-newline character; when a non-space
character follows the whitespace run that is the run itself, otherwise group
2 is the last non-newline character of the run (all following run characters
are newlines), matching Python's backtracking exactly. -/
def parseSuitableAt (cs : List Char) : Option (Bool × List Char) :=
  match dropCI "suitable:" cs with
  | none => none
  | some r0 =>
    let r1 := r0.dropWhile isPySpace
    let bv : Option (Bool × List Char) :=
      match dropCI "true" r1 with
      | some r => some (true, r)
      | none =>
        match dropCI "false" r1 with
        | some r => some (false, r)
        | none => none
    match bv with
    | none => none
    | some (b, r2) =>
      match r2.dropWhile isPySpace with
      | '-' :: r4 =>
        match r4.dropWhile isPySpace with
        | c :: rest => some (b, (c :: rest).takeWhile (fun x => x ≠ '\n'))
        | [] =>
          match (r4.takeWhile isPySpace).reverse.dropWhile (fun x => x == '\n') with
          | c :: _ => some (b, [c])
          | [] => none
      | _ => none

/-- `re.search` of the `SUITABLE:` regex: first matching start position. -/
def parseSuitable (cs : List Char) : Option (Bool × List Char) :=
  cs.tails.findSome? parseSuitableAt

/-- The affirmative cue words of the fallback scan in
`is_suitable_programming_issue_llm`. -/
def affirmative_words : List String := ["true", "suitable", "yes", "good"]

/-- `is_suitable_programming_issue_llm` from `analyze.py`.  The injected
`client` models `response.choices[0].message.content`: `.ok reply` is a
successful call, `.error e` is any exception raised by the transport or the
response access, both of which sit inside the function's `try` block.  The
prompt strings assembled by the source influence only the external request,
not how the reply is handled, so they are not part of the verdict model. -/
def is_suitable_programming_issue_llm (_issue : Issue)
    (client : Except String String) : Bool × String :=
  match client with
  | .error e => (false, "LLM analysis error: " ++ e)
  | .ok content =>
    let rc := pyStrip content
    match parseSuitable rc.data with
    | some (b, grp) => (b, "LLM analysis: " ++ pyStrip ⟨grp⟩)
    | none =>
      if affirmative_words.any
          (fun w => isSubstr w.data (pyLower rc).data) then
        (true, "LLM assessment: " ++ (⟨rc.data.take 100⟩ : String) ++ "...")
      else
        (false, "LLM assessment: " ++ (⟨rc.data.take 100⟩ : String) ++ "...")

/-! ## Side conditions for the score-append theorem

Appending a standalone keyword `w` after a space can only change the count
of a keyword `kw` by creating a match of `kw` that lies inside `' ' :: w` or
spans the junction.  `noSpanB` rules out spanning matches: no proper
non-empty suffix of `kw` is a prefix of `' ' :: w`. -/

/-- No proper non-empty suffix of `kw` is a prefix of `ws`. -/
def noSpanB (kw ws : List Char) : Bool :=
  (List.range kw.length).all
    (fun m => decide (m = 0) || !((kw.drop m).isPrefixOf ws))

/-- The keyword is non-empty and starts and ends with a word character
(true of every keyword in the program's lexicons). -/
def kwGoodB (kw : List Char) : Bool :=
  match kw with
  | [] => false
  | k0 :: _ => isWordChar k0 && isWordChar (lastCharD kw)

/-- Both side conditions for one (keyword, appended word) pair. -/
def pairOK (kw ws2 : List Char) : Bool := kwGoodB kw && noSpanB kw (' ' :: ws2)

/-- All side conditions needed to append `" " ++ w` to a text scored against
`lex`: `w` is a non-empty all-word-character token, lowering fixes it, and
every keyword of the lexicon satisfies `pairOK` against it. -/
def appendOK (lex : Lexicon) (w : String) : Bool :=
  !w.data.isEmpty && w.data.all isWordChar && (pyLower w == w)
    && (lex.high ++ lex.medium ++ lex.low).all (fun k => pairOK k.data w.data)

example : countOcc "bug".data "debugging bug".data = 1 := by decide
example : countOcc "bug".data "debugging session".data = 0 := by decide
example : countOcc "not working".data "it is not working now".data = 1 := by decide
example : sumCounts enhancement_keywords.high (pyLower "extend").data = 1 := by decide
example : check_templates "a bug  report template" = (10, "bug") := by decide

/-! ## Basic facts about the match counter -/

theorem string_data_inj {s t : String} : s.data = t.data ↔ s = t := by
  constructor
  · intro h
    cases s
    cases t
    simp only at h
    rw [h]
  · intro h
    rw [h]

theorem isWordChar_space : isWordChar ' ' = false := rfl

theorem countAux_nil (kw : List Char) (f : Nat) (pw : Bool) :
    countAux kw f pw [] = 0 := by
  cases f with
  | zero => rfl
  | succ f =>
    have h : matchesAt kw pw ([] : List Char) = false := by
      cases kw with
      | nil => rfl
      | cons k0 kt => simp [matchesAt, List.isPrefixOf]
    simp [countAux, h]

theorem matchesAt_elim {kw : List Char} {pw : Bool} {cs : List Char}
    (h : matchesAt kw pw cs = true) : kw <+: cs ∧ 1 ≤ kw.length := by
  cases kw with
  | nil => simp [matchesAt] at h
  | cons k0 kt =>
    simp only [matchesAt, Bool.and_eq_true, List.isPrefixOf_iff_prefix] at h
    exact ⟨h.1.1, by simp⟩

theorem countAux_fuel (kw : List Char) :
    ∀ (f g : Nat) (pw : Bool) (cs : List Char),
      cs.length ≤ f → cs.length ≤ g →
      countAux kw f pw cs = countAux kw g pw cs := by
  intro f
  induction f with
  | zero =>
    intro g pw cs h1 _
    have hcs : cs = [] := List.eq_nil_of_length_eq_zero (Nat.le_zero.mp h1)
    subst hcs
    rw [countAux_nil, countAux_nil]
  | succ f ih =>
    intro g pw cs h1 h2
    cases cs with
    | nil => rw [countAux_nil, countAux_nil]
    | cons c rest =>
      cases g with
      | zero => simp at h2
      | succ g =>
        by_cases hm : matchesAt kw pw (c :: rest) = true
        · obtain ⟨hpre, hlen⟩ := matchesAt_elim hm
          have hle := hpre.length_le
          simp only [List.length_cons] at hle h1 h2
          simp only [countAux, if_pos hm]
          congr 1
          apply ih <;> simp only [List.length_drop, List.length_cons] <;> omega
        · simp only [List.length_cons] at h1 h2
          simp only [countAux, if_neg hm]
          apply ih <;> omega

theorem countAux_blocked (k0 : Char) (kt : List Char)
    (hk0 : isWordChar k0 = true) :
    ∀ (f : Nat) (s : List Char), s.all isWordChar = true →
      countAux (k0 :: kt) f true s = 0 := by
  intro f
  induction f with
  | zero => intro s _; rfl
  | succ f ih =>
    intro s hs
    have hm : matchesAt (k0 :: kt) true s = false := by
      simp [matchesAt, hk0]
    cases s with
    | nil => rw [countAux_nil]
    | cons c rest =>
      simp only [countAux, hm, Bool.false_eq_true, if_false]
      simp only [List.all_cons, Bool.and_eq_true] at hs
      rw [hs.1]
      exact ih rest hs.2

theorem countAux_inside (k0 : Char) (kt : List Char)
    (hk0 : isWordChar k0 = true)
    (hkl : isWordChar (lastCharD (k0 :: kt)) = true) :
    ∀ (f : Nat) (s : List Char), s.all isWordChar = true → s.length ≤ f →
      countAux (k0 :: kt) f false s = if k0 :: kt = s then 1 else 0 := by
  intro f s hs hf
  cases s with
  | nil =>
    rw [countAux_nil]
    simp
  | cons c s' =>
    cases f with
    | zero => simp at hf
    | succ f =>
      by_cases he : k0 :: kt = c :: s'
      · rw [← he]
        have hm : matchesAt (k0 :: kt) false (k0 :: kt) = true := by
          simp only [matchesAt]
          have h1 : (k0 :: kt).isPrefixOf (k0 :: kt) = true :=
            List.isPrefixOf_iff_prefix.mpr List.prefix_rfl
          rw [h1, List.drop_length]
          simp [hk0, hkl, nextIsWord]
        simp [countAux, hm, List.drop_length, countAux_nil]
      · have hm : matchesAt (k0 :: kt) false (c :: s') = false := by
          by_contra h'
          rw [Bool.not_eq_false] at h'
          simp only [matchesAt, Bool.and_eq_true, List.isPrefixOf_iff_prefix] at h'
          obtain ⟨⟨hpre, _⟩, hafter⟩ := h'
          cases hdl : (c :: s').drop (k0 :: kt).length with
          | nil =>
            have hlen : (c :: s').length ≤ (k0 :: kt).length :=
              List.drop_eq_nil_iff.mp hdl
            exact he (hpre.eq_of_length (Nat.le_antisymm hpre.length_le hlen))
          | cons d rest2 =>
            have hd : d ∈ c :: s' := by
              have : d ∈ (c :: s').drop (k0 :: kt).length := by
                rw [hdl]; exact List.mem_cons_self d rest2
              exact List.mem_of_mem_drop this
            have hdw : isWordChar d = true := List.all_eq_true.mp hs d hd
            rw [hdl] at hafter
            simp [nextIsWord, hdw, hkl] at hafter
        simp only [countAux, hm, Bool.false_eq_true, if_false]
        simp only [List.all_cons, Bool.and_eq_true] at hs
        rw [hs.1, if_neg he]
        exact countAux_blocked k0 kt hk0 f s' hs.2

theorem nextIsWord_append (x z : List Char) (hz : nextIsWord z = false) :
    nextIsWord (x ++ z) = nextIsWord x := by
  cases x with
  | nil => simpa using hz
  | cons c rest => rfl

theorem isPrefixOf_append_boundary (k0 : Char) (kt w cs : List Char)
    (_hk0 : isWordChar k0 = true)
    (hns : noSpanB (k0 :: kt) (' ' :: w) = true) (hcs : cs ≠ []) :
    (k0 :: kt).isPrefixOf (cs ++ ' ' :: w) = (k0 :: kt).isPrefixOf cs := by
  by_cases hp : (k0 :: kt).isPrefixOf cs = true
  · rw [hp]
    rw [List.isPrefixOf_iff_prefix] at hp ⊢
    exact hp.trans (List.prefix_append cs (' ' :: w))
  · have hp' : (k0 :: kt).isPrefixOf cs = false := by
      cases h : (k0 :: kt).isPrefixOf cs
      · rfl
      · exact absurd h hp
    rw [hp']
    cases hq : (k0 :: kt).isPrefixOf (cs ++ ' ' :: w) with
    | false => rfl
    | true =>
      exfalso
      rw [List.isPrefixOf_iff_prefix] at hq
      rcases Nat.lt_or_ge cs.length (k0 :: kt).length with hlt | hge
      on_goal 2 =>
        apply hp
        rw [List.isPrefixOf_iff_prefix, List.prefix_iff_eq_take]
        have htake := List.prefix_iff_eq_take.mp hq
        rw [List.take_append_eq_append_take] at htake
        have h0 : (k0 :: kt).length - cs.length = 0 := by omega
        rw [h0, List.take_zero, List.append_nil] at htake
        exact htake
      on_goal 1 =>
        obtain ⟨t, ht⟩ := hq
        have hdrop : (k0 :: kt).drop cs.length ++ t = ' ' :: w := by
          have h1 := congrArg (List.drop cs.length) ht
          rw [List.drop_append_eq_append_drop, List.drop_left] at h1
          have h0 : cs.length - (k0 :: kt).length = 0 := by omega
          rw [h0, List.drop_zero] at h1
          exact h1
        have hpre2 : ((k0 :: kt).drop cs.length).isPrefixOf (' ' :: w) = true := by
          rw [List.isPrefixOf_iff_prefix]
          exact ⟨t, hdrop⟩
        have hm0 : 0 < cs.length := List.length_pos.mpr hcs
        have hall := List.all_eq_true.mp hns cs.length (List.mem_range.mpr hlt)
        rw [hpre2] at hall
        simp only [Bool.not_true, Bool.or_false, decide_eq_true_eq] at hall
        omega

theorem matchesAt_append (k0 : Char) (kt w cs : List Char) (pw : Bool)
    (hk0 : isWordChar k0 = true)
    (hns : noSpanB (k0 :: kt) (' ' :: w) = true) (hcs : cs ≠ []) :
    matchesAt (k0 :: kt) pw (cs ++ ' ' :: w) = matchesAt (k0 :: kt) pw cs := by
  have hpeq := isPrefixOf_append_boundary k0 kt w cs hk0 hns hcs
  simp only [matchesAt]
  rw [hpeq]
  cases hp : (k0 :: kt).isPrefixOf cs with
  | false => simp [hp]
  | true =>
    have hle : (k0 :: kt).length ≤ cs.length :=
      (List.isPrefixOf_iff_prefix.mp hp).length_le
    have hdrop : (cs ++ ' ' :: w).drop (k0 :: kt).length
        = cs.drop (k0 :: kt).length ++ ' ' :: w := by
      rw [List.drop_append_eq_append_drop]
      have h0 : (k0 :: kt).length - cs.length = 0 := by omega
      rw [h0, List.drop_zero]
    rw [hdrop, nextIsWord_append _ _ (by rfl)]

theorem countAux_append_nil (k0 : Char) (kt w : List Char)
    (hk0 : isWordChar k0 = true)
    (hkl : isWordChar (lastCharD (k0 :: kt)) = true)
    (hw : w.all isWordChar = true) :
    ∀ (pw : Bool) (f : Nat), 1 + w.length ≤ f →
      countAux (k0 :: kt) f pw (' ' :: w) = if k0 :: kt = w then 1 else 0 := by
  intro pw f hf
  cases f with
  | zero => exact absurd hf (by omega)
  | succ f =>
    have hm : matchesAt (k0 :: kt) pw (' ' :: w) = false := by
      cases hq : (k0 :: kt).isPrefixOf (' ' :: w) with
      | false => simp [matchesAt, hq]
      | true =>
        exfalso
        have hk0sp : k0 = ' ' := by
          have h1 : (k0 :: kt).isPrefixOf (' ' :: w)
              = ((k0 == ' ') && kt.isPrefixOf w) := rfl
          rw [h1] at hq
          simp only [Bool.and_eq_true, beq_iff_eq] at hq
          exact hq.1
        rw [hk0sp, isWordChar_space] at hk0
        exact absurd hk0 (by decide)
    simp only [countAux, hm, Bool.false_eq_true, if_false]
    show countAux (k0 :: kt) f (isWordChar ' ') w = _
    rw [isWordChar_space]
    exact countAux_inside k0 kt hk0 hkl f w hw (by omega)

theorem countAux_append (k0 : Char) (kt w : List Char)
    (hk0 : isWordChar k0 = true)
    (hkl : isWordChar (lastCharD (k0 :: kt)) = true)
    (hw : w.all isWordChar = true)
    (hns : noSpanB (k0 :: kt) (' ' :: w) = true) :
    ∀ (n : Nat) (cs : List Char), cs.length ≤ n → ∀ (pw : Bool) (f g : Nat),
      cs.length + 1 + w.length ≤ f → cs.length ≤ g →
      countAux (k0 :: kt) f pw (cs ++ ' ' :: w)
        = countAux (k0 :: kt) g pw cs + (if k0 :: kt = w then 1 else 0) := by
  intro n
  induction n with
  | zero =>
    intro cs hcs pw f g hf hg
    have hnil : cs = [] := List.eq_nil_of_length_eq_zero (Nat.le_zero.mp hcs)
    subst hnil
    rw [countAux_nil]
    simp only [List.nil_append, List.length_nil, Nat.zero_add] at hf ⊢
    rw [countAux_append_nil k0 kt w hk0 hkl hw pw f (by omega)]
  | succ n ih =>
    intro cs hcs pw f g hf hg
    cases cs with
    | nil =>
      rw [countAux_nil]
      simp only [List.nil_append, List.length_nil, Nat.zero_add] at hf ⊢
      rw [countAux_append_nil k0 kt w hk0 hkl hw pw f (by omega)]
    | cons c cs' =>
      have hmeq := matchesAt_append k0 kt w (c :: cs') pw hk0 hns (by simp)
      simp only [List.length_cons] at hcs hf hg
      cases f with
      | zero => exact absurd hf (by omega)
      | succ f =>
      cases g with
      | zero => exact absurd hg (by omega)
      | succ g =>
      by_cases hm : matchesAt (k0 :: kt) pw (c :: cs') = true
      · have hmL : matchesAt (k0 :: kt) pw ((c :: cs') ++ ' ' :: w) = true := by
          rw [hmeq]; exact hm
        obtain ⟨hpre, hlen1⟩ := matchesAt_elim hm
        have hle := hpre.length_le
        simp only [List.length_cons] at hle
        have hdrop : ((c :: cs') ++ ' ' :: w).drop (k0 :: kt).length
            = (c :: cs').drop (k0 :: kt).length ++ ' ' :: w := by
          rw [List.drop_append_eq_append_drop]
          have h0 : (k0 :: kt).length - (c :: cs').length = 0 := by
            simp only [List.length_cons]; omega
          rw [h0, List.drop_zero]
        simp only [countAux, if_pos hmL, if_pos hm, hdrop]
        rw [ih ((c :: cs').drop (k0 :: kt).length)
          (by simp only [List.length_drop, List.length_cons]; omega)
          (isWordChar (lastCharD (k0 :: kt))) f g
          (by simp only [List.length_drop, List.length_cons]; omega)
          (by simp only [List.length_drop, List.length_cons]; omega)]
        omega
      · have hm' : matchesAt (k0 :: kt) pw (c :: cs') = false := by
          cases hb : matchesAt (k0 :: kt) pw (c :: cs')
          · rfl
          · exact absurd hb hm
        have hmL : matchesAt (k0 :: kt) pw ((c :: cs') ++ ' ' :: w) = false := by
          rw [hmeq]; exact hm'
        rw [List.cons_append] at hmL ⊢
        simp only [countAux, hmL, hm', Bool.false_eq_true, if_false]
        exact ih cs' (by omega) (isWordChar c) f g (by omega) (by omega)

theorem countOcc_append (kw w : List Char)
    (hgood : kwGoodB kw = true) (hns : noSpanB kw (' ' :: w) = true)
    (hw : w.all isWordChar = true) (cs : List Char) :
    countOcc kw (cs ++ ' ' :: w) = countOcc kw cs + (if kw = w then 1 else 0) := by
  cases kw with
  | nil => simp [kwGoodB] at hgood
  | cons k0 kt =>
    simp only [kwGoodB, Bool.and_eq_true] at hgood
    unfold countOcc
    exact countAux_append k0 kt w hgood.1 hgood.2 hw hns cs.length cs le_rfl
      false (cs ++ ' ' :: w).length cs.length
      (by simp [List.length_append]; omega) le_rfl

theorem countOcc_nil (kw : List Char) : countOcc kw [] = 0 := rfl

theorem sumCounts_nil (kws : List String) : sumCounts kws [] = 0 := by
  induction kws with
  | nil => rfl
  | cons k ks ih =>
    simp only [sumCounts, List.map_cons, List.sum_cons] at ih ⊢
    rw [countOcc_nil, ih]

theorem calculate_score_eq (text : String) (lex : Lexicon) :
    calculate_score text lex
      = 3 * (sumCounts lex.high (pyLower text).data : ℚ)
        + 2 * (sumCounts lex.medium (pyLower text).data : ℚ)
        + (sumCounts lex.low (pyLower text).data : ℚ) := by
  unfold calculate_score
  by_cases h : text = ""
  · subst h
    have hd : (pyLower "").data = [] := rfl
    rw [if_pos rfl, hd, sumCounts_nil, sumCounts_nil, sumCounts_nil]
    norm_num
  · rw [if_neg h]

theorem check_exclude_eq (text : String) :
    check_exclude_patterns text
      = 2 * (sumCounts exclude_other (pyLower text).data : ℚ) := by
  unfold check_exclude_patterns
  by_cases h : text = ""
  · subst h
    have hd : (pyLower "").data = [] := rfl
    rw [if_pos rfl, hd, sumCounts_nil]
    norm_num
  · rw [if_neg h]

theorem calculate_score_nonneg (text : String) (lex : Lexicon) :
    0 ≤ calculate_score text lex := by
  rw [calculate_score_eq]
  positivity

theorem check_exclude_nonneg (text : String) :
    0 ≤ check_exclude_patterns text := by
  rw [check_exclude_eq]
  positivity

theorem sumCounts_append_word (kws : List String) (t : List Char) (w : String)
    (h : ∀ k ∈ kws, countOcc k.data (t ++ ' ' :: w.data)
          = countOcc k.data t + (if k = w then 1 else 0)) :
    sumCounts kws (t ++ ' ' :: w.data) = sumCounts kws t + kws.count w := by
  induction kws with
  | nil => simp [sumCounts]
  | cons k ks ih =>
    simp only [sumCounts, List.map_cons, List.sum_cons]
    rw [h k (List.mem_cons_self k ks)]
    have := ih (fun k' hk' => h k' (List.mem_cons_of_mem k hk'))
    simp only [sumCounts] at this
    rw [this, List.count_cons]
    by_cases hkw : k = w
    · simp [hkw]
      omega
    · simp [hkw]
      omega

theorem pyLower_append (s t : String) : pyLower (s ++ t) = pyLower s ++ pyLower t := by
  apply string_data_inj.mp
  simp [pyLower, String.data_append]

theorem calculate_score_append (lex : Lexicon) (w text : String)
    (hok : appendOK lex w = true) :
    calculate_score (text ++ " " ++ w) lex
      = calculate_score text lex + 3 * (lex.high.count w : ℚ)
        + 2 * (lex.medium.count w : ℚ) + (lex.low.count w : ℚ) := by
  simp only [appendOK, Bool.and_eq_true] at hok
  obtain ⟨⟨⟨-, hwall⟩, hlow⟩, hall⟩ := hok
  have hlw : pyLower w = w := by
    exact eq_of_beq hlow
  have hdata : (pyLower (text ++ " " ++ w)).data
      = (pyLower text).data ++ ' ' :: w.data := by
    rw [pyLower_append, pyLower_append, hlw]
    rw [String.data_append, String.data_append]
    have hsp : (pyLower " ").data = [' '] := rfl
    rw [hsp, List.append_assoc]
    rfl
  have hsum : ∀ kws : List String, (∀ k ∈ kws, pairOK k.data w.data = true) →
      sumCounts kws ((pyLower text).data ++ ' ' :: w.data)
        = sumCounts kws (pyLower text).data + kws.count w := by
    intro kws hk
    apply sumCounts_append_word
    intro k hkmem
    have hp := hk k hkmem
    simp only [pairOK, Bool.and_eq_true] at hp
    rw [countOcc_append k.data w.data hp.1 hp.2 hwall (pyLower text).data]
    congr 1
    by_cases hkw : k = w
    · simp [hkw]
    · have : k.data ≠ w.data := fun hc => hkw (string_data_inj.mp hc)
      simp [hkw, this]
  have hmem : ∀ kws : List String,
      (∀ k ∈ lex.high ++ lex.medium ++ lex.low, pairOK k.data w.data = true) →
      True := fun _ _ => trivial
  have hallm := List.all_eq_true.mp hall
  rw [calculate_score_eq, calculate_score_eq, hdata]
  rw [hsum lex.high (fun k hk => hallm k (by simp [hk]))]
  rw [hsum lex.medium (fun k hk => hallm k (by simp [hk]))]
  rw [hsum lex.low (fun k hk => hallm k (by simp [hk]))]
  push_cast
  ring

set_option maxHeartbeats 4000000 in
theorem bug_high_append_ok :
    bug_keywords.high.all (fun w => appendOK bug_keywords w) = true := by decide

set_option maxHeartbeats 4000000 in
theorem enhancement_high_append_ok :
    enhancement_keywords.high.all (fun w => appendOK enhancement_keywords w) = true := by
  decide

theorem score_extend : calculate_score "extend" enhancement_keywords = 4 := by
  have h1 : sumCounts enhancement_keywords.high (pyLower "extend").data = 1 := by
    decide
  have h2 : sumCounts enhancement_keywords.medium (pyLower "extend").data = 0 := by
    decide
  have h3 : sumCounts enhancement_keywords.low (pyLower "extend").data = 1 := by
    decide
  rw [calculate_score_eq, h1, h2, h3]
  norm_num

theorem score_extend_extend :
    calculate_score "extend extend" enhancement_keywords = 8 := by
  have h1 : sumCounts enhancement_keywords.high (pyLower "extend extend").data = 2 := by
    decide
  have h2 : sumCounts enhancement_keywords.medium (pyLower "extend extend").data = 0 := by
    decide
  have h3 : sumCounts enhancement_keywords.low (pyLower "extend extend").data = 2 := by
    decide
  rw [calculate_score_eq, h1, h2, h3]
  norm_num

/-- Claim C7, counterexample: `extend` is a high-weight keyword of the
enhancement lexicon that also sits in its low tier, so appending one more
standalone occurrence of it raises the score by 4.0 (= 3.0 + 1.0), not by
exactly the high-tier weight 3.0 as the claim states. -/
theorem monotonicity_counterexample :
    "extend" ∈ enhancement_keywords.high
    ∧ 1 ≤ countOcc "extend".data (pyLower "extend").data
    ∧ calculate_score ("extend" ++ " " ++ "extend") enhancement_keywords
        ≠ calculate_score "extend" enhancement_keywords + 3
    ∧ calculate_score ("extend" ++ " " ++ "extend") enhancement_keywords
        = calculate_score "extend" enhancement_keywords + 4 := by
  have hcat : ("extend" ++ " " ++ "extend" : String) = "extend extend" := rfl
  refine ⟨by decide, by decide, ?_, ?_⟩
  · rw [hcat, score_extend, score_extend_extend]
    norm_num
  · rw [hcat, score_extend, score_extend_extend]
    norm_num

/-- Claim C7 (amended): for both of the program's lexicons, appending one
more standalone whole-word occurrence of a high-weight keyword `w` (after a
separating space) raises the score by exactly
`3·(multiplicity of w in high) + 2·(in medium) + 1·(in low)`; this is the
high-tier weight 3.0 whenever `w` is listed in no other tier, and is 4.0 for
`extend`, `expand`, `增强`, `扩展` of the enhancement lexicon, which also sit
in its low tier.  In particular the score strictly increases, and adding a
matching occurrence never decreases it. -/
theorem score_append_high_keyword (lex : Lexicon) (w text : String)
    (hlex : lex = bug_keywords ∨ lex = enhancement_keywords)
    (hw : w ∈ lex.high)
    (_hocc : 1 ≤ countOcc w.data (pyLower text).data) :
    calculate_score (text ++ " " ++ w) lex
      = calculate_score text lex + 3 * (lex.high.count w : ℚ)
        + 2 * (lex.medium.count w : ℚ) + (lex.low.count w : ℚ)
    ∧ calculate_score text lex < calculate_score (text ++ " " ++ w) lex := by
  have hok : appendOK lex w = true := by
    rcases hlex with h | h
    · subst h
      exact List.all_eq_true.mp bug_high_append_ok w hw
    · subst h
      exact List.all_eq_true.mp enhancement_high_append_ok w hw
  have heq := calculate_score_append lex w text hok
  refine ⟨heq, ?_⟩
  rw [heq]
  have h1 : 0 < lex.high.count w := List.count_pos_iff.mpr hw
  have h2 : (1 : ℚ) ≤ (lex.high.count w : ℚ) := by exact_mod_cast h1
  have h3 : (0 : ℚ) ≤ (lex.medium.count w : ℚ) := by positivity
  have h4 : (0 : ℚ) ≤ (lex.low.count w : ℚ) := by positivity
  linarith

/-- Witness for the amended C7 at a concrete input: appending `" bug"` to the
text `"bug"` raises the bug-lexicon score by exactly the high-tier weight. -/
theorem score_append_high_keyword_witness :
    calculate_score ("bug" ++ " " ++ "bug") bug_keywords
      = calculate_score "bug" bug_keywords + 3 * (bug_keywords.high.count "bug" : ℚ)
        + 2 * (bug_keywords.medium.count "bug" : ℚ)
        + (bug_keywords.low.count "bug" : ℚ)
    ∧ calculate_score "bug" bug_keywords
        < calculate_score ("bug" ++ " " ++ "bug") bug_keywords :=
  score_append_high_keyword bug_keywords "bug" "bug" (Or.inl rfl) (by decide)
    (by decide)

/-- Claim C6: the score is the sum, over all weight tiers and all keywords
in each tier, of the whole-word match count times the tier weight (high 3.0,
medium 2.0, low 1.0); it is non-negative, and the empty text scores 0. -/
theorem calculate_score_spec (text : String) (lex : Lexicon) :
    calculate_score text lex
      = ((lex.high.map
            (fun k => (countOcc k.data (pyLower text).data : ℚ) * 3)).sum
        + (lex.medium.map
            (fun k => (countOcc k.data (pyLower text).data : ℚ) * 2)).sum
        + (lex.low.map
            (fun k => (countOcc k.data (pyLower text).data : ℚ) * 1)).sum)
    ∧ 0 ≤ calculate_score text lex
    ∧ calculate_score "" lex = 0 := by
  refine ⟨?_, calculate_score_nonneg text lex, ?_⟩
  · rw [calculate_score_eq]
    have conv : ∀ (kws : List String) (c : ℚ),
        (sumCounts kws (pyLower text).data : ℚ) * c
          = (kws.map
              (fun k => (countOcc k.data (pyLower text).data : ℚ) * c)).sum := by
      intro kws c
      unfold sumCounts
      rw [Nat.cast_list_sum, List.map_map]
      rw [List.sum_map_mul_right]
      rfl
    rw [mul_comm 3, mul_comm 2, conv lex.high 3, conv lex.medium 2]
    rw [show (sumCounts lex.low (pyLower text).data : ℚ)
        = (sumCounts lex.low (pyLower text).data : ℚ) * 1 by ring]
    rw [conv lex.low 1]
  · rw [calculate_score_eq]
    have hd : (pyLower "").data = [] := rfl
    rw [hd, sumCounts_nil, sumCounts_nil, sumCounts_nil]
    norm_num

/-- Claim C1, counterexample: the suitability filter's negative-keyword check
is Python `in`, i.e. plain substring containment, not whole-word matching:
the title `"Fix typos in code"` is rejected with a reason naming `typo`,
although `typo` has zero whole-word occurrences in the lowered title
(it occurs only inside the longer word `typos`). -/
theorem wholeword_counterexample :
    is_suitable_programming_issue ⟨"Fix typos in code", "", []⟩
        = (false, negReason "typo")
    ∧ countOcc "typo".data (pyLower "Fix typos in code").data = 0 := by
  constructor
  · decide
  · decide

/-- Claim C1 (amended): the classifier's lexicon scorer and exclusion
counter match keywords only as whole words under case-insensitive
word-boundary matching — in particular `score("debugging session",
bugLexicon)` counts no match for `bug` and an exclusion keyword inside a
longer word is not counted — but the suitability filter's
negative/cross-platform/positive keyword checks use plain substring
containment and can fire inside longer words, as on `"Improve typography"`. -/
theorem wholeword_matching_amended :
    calculate_score "debugging session" bug_keywords = 0
    ∧ countOcc "bug".data (pyLower "debugging session").data = 0
    ∧ check_exclude_patterns "questionnaire" = 0
    ∧ is_suitable_programming_issue ⟨"Improve typography", "", []⟩
        = (false, negReason "typo") := by
  refine ⟨?_, by decide, ?_, by decide⟩
  · have h1 : sumCounts bug_keywords.high (pyLower "debugging session").data = 0 := by
      decide
    have h2 : sumCounts bug_keywords.medium (pyLower "debugging session").data = 0 := by
      decide
    have h3 : sumCounts bug_keywords.low (pyLower "debugging session").data = 0 := by
      decide
    rw [calculate_score_eq, h1, h2, h3]
    norm_num
  · have h : sumCounts exclude_other (pyLower "questionnaire").data = 0 := by
      decide
    rw [check_exclude_eq, h]
    norm_num

/-- Claim C8: whenever some negative keyword occurs (as a substring) in the
first 100 characters of the lowered title, the filter rejects with a reason
naming the first such keyword, regardless of body, labels, or any other
rule. -/
theorem negative_keyword_priority (issue : Issue) (kw : String)
    (h : negative_keywords.find?
        (fun k => isSubstr k.data ((pyLower issue.title).data.take 100)) = some kw) :
    is_suitable_programming_issue issue = (false, negReason kw) := by
  simp only [is_suitable_programming_issue]
  rw [h]

/-- Witness for C8 at the spec's example: `"Fix typo in README"` is rejected
for the negative keyword `typo`, whatever the body and labels say. -/
theorem negative_keyword_priority_witness :
    is_suitable_programming_issue
        ⟨"Fix typo in README", "implement a fast algorithm", ["enhancement"]⟩
      = (false, negReason "typo") :=
  negative_keyword_priority _ "typo" (by decide)

/-- Claim C9: any exception raised inside the LLM call or response handling
(modelled by an `.error` outcome of the injected client) is caught and
converted to a `(false, reason)` verdict whose reason is derived from the
error; the total Lean function never propagates a fault. -/
theorem llm_exception_handling (issue : Issue) (e : String) :
    is_suitable_programming_issue_llm issue (.error e)
      = (false, "LLM analysis error: " ++ e) := rfl

/-- Claim C10: on a successful reply, if the `SUITABLE: <true|false> -
<reason>` regex matches (case-insensitively) the stripped reply, the stated
boolean and stated (stripped, prefixed) reason are returned; otherwise the
verdict is the affirmative-cue scan of the reply, `true` exactly when a cue
word occurs, with a truncated-reply reason either way. -/
theorem llm_reply_parsing (issue : Issue) (reply : String) :
    (∀ (b : Bool) (grp : List Char),
      parseSuitable (pyStrip reply).data = some (b, grp) →
      is_suitable_programming_issue_llm issue (.ok reply)
        = (b, "LLM analysis: " ++ pyStrip ⟨grp⟩))
    ∧ (parseSuitable (pyStrip reply).data = none →
      is_suitable_programming_issue_llm issue (.ok reply)
        = (affirmative_words.any
            (fun wd => isSubstr wd.data (pyLower (pyStrip reply)).data),
           "LLM assessment: " ++ (⟨(pyStrip reply).data.take 100⟩ : String) ++ "...")) := by
  constructor
  · intro b grp hp
    simp only [is_suitable_programming_issue_llm]
    rw [hp]
  · intro hp
    simp only [is_suitable_programming_issue_llm]
    rw [hp]
    cases haff : affirmative_words.any
        (fun wd => isSubstr wd.data (pyLower (pyStrip reply)).data)
    · simp [haff]
    · simp [haff]

/-- Witness for C10: a well-formed reply is parsed into its stated verdict
and reason, and a reply with no affirmative cue falls back to rejection. -/
theorem llm_reply_parsing_witness :
    is_suitable_programming_issue_llm ⟨"", "", []⟩
        (.ok "SUITABLE: true - Clear task")
      = (true, "LLM analysis: Clear task")
    ∧ is_suitable_programming_issue_llm ⟨"", "", []⟩ (.ok "no reply")
      = (false, "LLM assessment: no reply...") := by
  constructor
  · have h := (llm_reply_parsing ⟨"", "", []⟩ "SUITABLE: true - Clear task").1 true
      "Clear task".data (by decide)
    rw [h]
    decide
  · have h := (llm_reply_parsing ⟨"", "", []⟩ "no reply").2 (by decide)
    rw [h]
    decide

theorem decision_spec_cases (fb fe ex : ℚ) :
    (ex > 5 → decision_spec fb fe ex = "other")
    ∧ (decision_spec fb fe ex = "bug" ↔ ¬ex > 5 ∧ fb > fe ∧ fb ≥ 1)
    ∧ (decision_spec fb fe ex = "enhancement" ↔ ¬ex > 5 ∧ fe > fb ∧ fe ≥ 1)
    ∧ (fb = fe → decision_spec fb fe ex = "other") := by
  refine ⟨?_, ?_, ?_, ?_⟩
  · intro hex
    unfold decision_spec
    rw [if_pos hex]
  · unfold decision_spec
    by_cases hex : ex > 5
    · rw [if_pos hex]
      exact ⟨fun h => absurd h (by decide), fun hc => absurd hex hc.1⟩
    · rw [if_neg hex]
      by_cases hb : fb > fe ∧ fb ≥ 1
      · rw [if_pos hb]
        exact ⟨fun _ => ⟨hex, hb⟩, fun _ => rfl⟩
      · rw [if_neg hb]
        by_cases he2 : fe > fb ∧ fe ≥ 1
        · rw [if_pos he2]
          exact ⟨fun h => absurd h (by decide), fun hc => absurd hc.2 hb⟩
        · rw [if_neg he2]
          exact ⟨fun h => absurd h (by decide), fun hc => absurd hc.2 hb⟩
  · unfold decision_spec
    by_cases hex : ex > 5
    · rw [if_pos hex]
      exact ⟨fun h => absurd h (by decide), fun hc => absurd hex hc.1⟩
    · rw [if_neg hex]
      by_cases hb : fb > fe ∧ fb ≥ 1
      · rw [if_pos hb]
        constructor
        · intro h
          exact absurd h (by decide)
        · intro hc
          exact absurd hb.1 (not_lt.mpr (le_of_lt hc.2.1))
      · rw [if_neg hb]
        by_cases he2 : fe > fb ∧ fe ≥ 1
        · rw [if_pos he2]
          exact ⟨fun _ => ⟨hex, he2⟩, fun _ => rfl⟩
        · rw [if_neg he2]
          exact ⟨fun h => absurd h (by decide), fun hc => absurd hc.2 he2⟩
  · intro hfb
    unfold decision_spec
    by_cases hex : ex > 5
    · rw [if_pos hex]
    · rw [if_neg hex]
      have h1 : ¬(fb > fe ∧ fb ≥ 1) := by
        intro hc
        rw [hfb] at hc
        exact lt_irrefl fe hc.1
      have h2 : ¬(fe > fb ∧ fe ≥ 1) := by
        intro hc
        rw [hfb] at hc
        exact lt_irrefl fe hc.1
      rw [if_neg h1, if_neg h2]

theorem classify_eq_decision (title body : String) (labels : List String)
    (h : (check_templates (combinedText title body labels)).1 = 0) :
    classify_issue title body labels
      = decision_spec (finalScoresOf title body labels).1
          (finalScoresOf title body labels).2.1
          (finalScoresOf title body labels).2.2 := by
  have hng : ¬((check_templates (combinedText title body labels)).1 > 0) := by
    rw [h]
    exact lt_irrefl 0
  simp only [classify_issue, decision_spec, finalScoresOf]
  rw [if_neg hng]

/-- Claim C2: when the template matcher scores 0 on the combined blob, the
classifier implements exactly the documented decision rule on the
label-boosted final scores: `other` under the hard exclusion override
(`excludeScore > 5`), else `bug` iff `finalBug > finalEnhancement ∧ finalBug
≥ 1`, else `enhancement` iff the symmetric condition, else `other` — in
particular `other` on every tie. -/
theorem classify_decision_rule (title body : String) (labels : List String)
    (h : (check_templates (combinedText title body labels)).1 = 0) :
    classify_issue title body labels
      = decision_spec (finalScoresOf title body labels).1
          (finalScoresOf title body labels).2.1
          (finalScoresOf title body labels).2.2
    ∧ ((finalScoresOf title body labels).2.2 > 5 →
        classify_issue title body labels = "other")
    ∧ (classify_issue title body labels = "bug"
        ↔ ¬(finalScoresOf title body labels).2.2 > 5
          ∧ (finalScoresOf title body labels).1 > (finalScoresOf title body labels).2.1
          ∧ (finalScoresOf title body labels).1 ≥ 1)
    ∧ (classify_issue title body labels = "enhancement"
        ↔ ¬(finalScoresOf title body labels).2.2 > 5
          ∧ (finalScoresOf title body labels).2.1 > (finalScoresOf title body labels).1
          ∧ (finalScoresOf title body labels).2.1 ≥ 1)
    ∧ ((finalScoresOf title body labels).1 = (finalScoresOf title body labels).2.1 →
        classify_issue title body labels = "other") := by
  have hcl := classify_eq_decision title body labels h
  have hc := decision_spec_cases (finalScoresOf title body labels).1
    (finalScoresOf title body labels).2.1 (finalScoresOf title body labels).2.2
  rw [hcl]
  exact ⟨rfl, hc.1, hc.2.1, hc.2.2.1, hc.2.2.2⟩

/-- Witness for C2 at a concrete input with no template match. -/
theorem classify_decision_rule_witness :
    classify_issue "bug crash error" "" []
      = decision_spec (finalScoresOf "bug crash error" "" []).1
          (finalScoresOf "bug crash error" "" []).2.1
          (finalScoresOf "bug crash error" "" []).2.2 :=
  (classify_decision_rule "bug crash error" "" [] (by decide)).1

theorem check_templates_fst (text : String) :
    (check_templates text).1 = 0 ∨ (check_templates text).1 = 10 := by
  unfold check_templates
  split_ifs <;> simp

/-- Claim C3: the template matcher returns `(10, category)` for the first
category (in `bug`-then-`enhancement` declared order) with a pattern
matching anywhere in the lowered text and `(0, 'other')` when none match;
and whenever the combined blob gets a non-zero template score, `classify`
returns the template's category immediately. -/
theorem template_matcher_spec :
    (∀ text : String,
      (template_patterns_bug.any (fun p => searchTok p (pyLower text).data) = true →
        check_templates text = (10, "bug"))
      ∧ (template_patterns_bug.any (fun p => searchTok p (pyLower text).data) = false →
         template_patterns_enhancement.any
            (fun p => searchTok p (pyLower text).data) = true →
        check_templates text = (10, "enhancement"))
      ∧ (template_patterns_bug.any (fun p => searchTok p (pyLower text).data) = false →
         template_patterns_enhancement.any
            (fun p => searchTok p (pyLower text).data) = false →
        check_templates text = (0, "other")))
    ∧ (∀ (title body : String) (labels : List String),
        (check_templates (combinedText title body labels)).1 ≠ 0 →
        classify_issue title body labels
          = (check_templates (combinedText title body labels)).2) := by
  constructor
  · intro text
    by_cases he : text = ""
    · subst he
      refine ⟨fun hb => absurd hb (by decide), fun _ hb => absurd hb (by decide),
        fun _ _ => by decide⟩
    · unfold check_templates
      rw [if_neg he]
      refine ⟨fun hb => ?_, fun hb0 hb => ?_, fun hb0 he0 => ?_⟩
      · rw [if_pos hb]
      · rw [if_neg (by rw [hb0]; exact Bool.false_ne_true), if_pos hb]
      · rw [if_neg (by rw [hb0]; exact Bool.false_ne_true),
          if_neg (by rw [he0]; exact Bool.false_ne_true)]
  · intro title body labels hne
    have hpos : (check_templates (combinedText title body labels)).1 > 0 := by
      rcases check_templates_fst (combinedText title body labels) with h0 | h10
      · exact absurd h0 hne
      · rw [h10]
        norm_num
    simp only [classify_issue]
    rw [if_pos hpos]

/-- Witness for C3: an enhancement template is detected with score 10, and a
body containing `Bug Report Template` makes `classify` return `bug`. -/
theorem template_matcher_spec_witness :
    check_templates "feature request template" = (10, "enhancement")
    ∧ classify_issue "x" "Bug Report Template" [] = "bug" := by
  constructor
  · exact (template_matcher_spec.1 "feature request template").2.1 (by decide)
      (by decide)
  · have h := template_matcher_spec.2 "x" "Bug Report Template" [] (by decide)
    rw [h]
    decide

/-- Claim C4: the confidence path returns exactly the category of
`classify_issue`, and its confidence is computed by the raw formula from the
blob-only scores (`rawScores` takes no labels, so no label bonus can enter);
two inputs with the same combined blob feed identical raw scores into the
confidence formula. -/
theorem confidence_category_and_raw_scores (title body : String)
    (labels : List String) :
    (get_classification_confidence title body labels).1
        = classify_issue title body labels
    ∧ (get_classification_confidence title body labels).2
        = confidence_formula (classify_issue title body labels)
            (rawScores (combinedText title body labels))
    ∧ ∀ (t2 b2 : String) (l2 : List String),
        combinedText t2 b2 l2 = combinedText title body labels →
        rawScores (combinedText t2 b2 l2)
          = rawScores (combinedText title body labels) := by
  refine ⟨rfl, rfl, ?_⟩
  intro t2 b2 l2 hb
  rw [hb]

/-- Witness for C4: two label lists that join to the same blob (so the
decision path may apply different bonuses) give identical raw scores for the
confidence formula. -/
theorem confidence_raw_scores_witness :
    rawScores (combinedText "add feature" "" ["bug fix", "request"])
      = rawScores (combinedText "add feature" "" ["bug fix request"]) :=
  (confidence_category_and_raw_scores "add feature" "" ["bug fix request"]).2.2
    "add feature" "" ["bug fix", "request"] (by decide)

/-- Claim C5: the confidence is always within `[0, 1]` (hence finite, being
an exact rational), and both confidence denominators are strictly positive
thanks to the `+1` term, so the division is always defined. -/
theorem confidence_bounds (title body : String) (labels : List String) :
    0 ≤ (get_classification_confidence title body labels).2
    ∧ (get_classification_confidence title body labels).2 ≤ 1
    ∧ 0 < (rawScores (combinedText title body labels)).1
        + (rawScores (combinedText title body labels)).2.1 + 1
    ∧ 0 < (rawScores (combinedText title body labels)).2.2
        + (rawScores (combinedText title body labels)).1
        + (rawScores (combinedText title body labels)).2.1 + 1 := by
  have hb : 0 ≤ (rawScores (combinedText title body labels)).1 :=
    calculate_score_nonneg (combinedText title body labels) bug_keywords
  have he : 0 ≤ (rawScores (combinedText title body labels)).2.1 :=
    calculate_score_nonneg (combinedText title body labels) enhancement_keywords
  have hx : 0 ≤ (rawScores (combinedText title body labels)).2.2 :=
    check_exclude_nonneg (combinedText title body labels)
  have hd1 : 0 < (rawScores (combinedText title body labels)).1
      + (rawScores (combinedText title body labels)).2.1 + 1 := by linarith
  have hd2 : 0 < (rawScores (combinedText title body labels)).2.2
      + (rawScores (combinedText title body labels)).1
      + (rawScores (combinedText title body labels)).2.1 + 1 := by linarith
  refine ⟨?_, ?_, hd1, hd2⟩
  · show 0 ≤ confidence_formula (classify_issue title body labels)
      (rawScores (combinedText title body labels))
    unfold confidence_formula
    split_ifs
    · exact le_min (div_nonneg hb (le_of_lt hd1)) zero_le_one
    · exact le_min (div_nonneg he (le_of_lt hd1)) zero_le_one
    · exact div_nonneg hx (le_of_lt hd2)
  · show confidence_formula (classify_issue title body labels)
      (rawScores (combinedText title body labels)) ≤ 1
    unfold confidence_formula
    split_ifs
    · exact min_le_right _ 1
    · exact min_le_right _ 1
    · rw [div_le_one hd2]
      linarith
